import Mathlib

/-!
Verification of the `error-serialization` library: a shallow embedding of the
plugin pipeline (orchestrator, Zod validation plugin, Axios HTTP plugin,
standard error plugin) together with proofs of the specified properties.

JavaScript runtime values that flow through the library (response bodies,
validation maps, messages) are modelled by `JsValue`; JS objects are
insertion-ordered association lists, and JS arrays carry both their element
list and their (named) own-properties, since the nested-path builder can
attach string keys onto arrays.
-/

/-- Model of a JavaScript runtime value as used by the library.
Arrays carry their elements plus any named (non-index) own properties. -/
inductive JsValue where
  | nullV : JsValue
  | undefV : JsValue
  | bool : Bool → JsValue
  | num : Int → JsValue
  | str : String → JsValue
  | arr : List JsValue → List (String × JsValue) → JsValue
  | obj : List (String × JsValue) → JsValue
deriving Repr

/-- JS truthiness (`Boolean(v)`), restricted to the values we model. -/
def jsTruthy : JsValue → Bool
  | .nullV => false
  | .undefV => false
  | .bool b => b
  | .num n => n != 0
  | .str s => !s.isEmpty
  | .arr _ _ => true
  | .obj _ => true

/-- Truthiness of a property read that may be absent (`undefined`). -/
def truthyO : Option JsValue → Bool
  | none => false
  | some v => jsTruthy v

/-- `typeof v === "object"` (true for objects, arrays and `null`). -/
def isObjectType : JsValue → Bool
  | .obj _ => true
  | .arr _ _ => true
  | .nullV => true
  | _ => false

/-- First-match lookup in an insertion-ordered field list (JS property read). -/
def jsGetFields : List (String × JsValue) → String → Option JsValue
  | [], _ => none
  | (k1, v1) :: rest, k => if k1 = k then some v1 else jsGetFields rest k

/-- JS property write on a field list: replace in place if the key exists,
append otherwise (insertion order preserved). -/
def jsSetFields : List (String × JsValue) → String → JsValue → List (String × JsValue)
  | [], k, v => [(k, v)]
  | (k1, v1) :: rest, k, v =>
    if k1 = k then (k1, v) :: rest else (k1, v1) :: jsSetFields rest k v

/-- Decimal digit test on a character. -/
def isDigitChar (c : Char) : Bool := 48 ≤ c.toNat && c.toNat ≤ 57

/-- Numeric value of a decimal digit character. -/
def charDigit (c : Char) : Nat := c.toNat - 48

/-- A string is a canonical array index (JS array index semantics for
property keys: `"0"`, `"17"`, but not `"007"`, `"-1"` or `"x"`): all
digits, no leading zero unless the string is exactly `"0"`. -/
def parseIndex (s : String) : Option Nat :=
  match s.toList with
  | [] => none
  | c :: cs =>
    if (c :: cs).all isDigitChar && (c ≠ '0' || cs.isEmpty) then
      some ((c :: cs).foldl (fun a d => a * 10 + charDigit d) 0)
    else none

/-- Write into an element list at an index, padding holes with `undefined`. -/
def setElem (es : List JsValue) (n : Nat) (v : JsValue) : List JsValue :=
  if n < es.length then es.set n v
  else es ++ List.replicate (n - es.length) JsValue.undefV ++ [v]

/-- JS property read `v[k]` (with array index semantics); `none` models
`undefined`. Primitive receivers have no own properties here. -/
def jsRead : JsValue → String → Option JsValue
  | .obj fs, k => jsGetFields fs k
  | .arr es ps, k =>
    (match parseIndex k with
     | some n => es.get? n
     | none => jsGetFields ps k)
  | _, _ => none

/-- JS property write `v[k] = w` (with array index semantics). Writes to
primitive receivers are dropped (they are unreachable in the library). -/
def jsWrite : JsValue → String → JsValue → JsValue
  | .obj fs, k, w => .obj (jsSetFields fs k w)
  | .arr es ps, k, w =>
    (match parseIndex k with
     | some n => .arr (setElem es n w) ps
     | none => .arr es (jsSetFields ps k w))
  | v, _, _ => v

/-- Optional-chained property access `v?.k`, yielding `undefined` when the
receiver is nullish or has no such property. -/
def jsProp (v : JsValue) (k : String) : JsValue :=
  (jsRead v k).getD .undefV

/-- JS logical or `a || b`: `a` when truthy, otherwise `b`. -/
def jsOr (a b : JsValue) : JsValue :=
  if jsTruthy a then a else b

/-- `String(v)` for the values we model. -/
def jsToStr : JsValue → String
  | .nullV => "null"
  | .undefV => "undefined"
  | .bool b => if b then "true" else "false"
  | .num n => toString n
  | .str s => s
  | .arr es _ => String.intercalate "," (es.map fun e =>
      match e with
      | .nullV => ""
      | .undefV => ""
      | .str s => s
      | .num n => toString n
      | .bool b => if b then "true" else "false"
      | _ => "")
  | .obj _ => "[object Object]"

/-!
## Response model and plugin contract (`types.ts`)
-/

/-- `AppErrorResponse.metadata`. -/
structure ResponseMetadata where
  plugin : String
  priority : Int
deriving Repr, DecidableEq

/-- The standardized error response (`AppErrorResponse` in `types.ts`),
generic over the type of the original input value. Field values that are
typed `string`/`string[]` in TS but can hold arbitrary runtime values via the
Axios pass-through paths are modelled as `JsValue`. -/
structure AppErrorResponse (α : Type) where
  metadata : ResponseMetadata
  error : α
  global : Option JsValue := none
  code : Option (List JsValue) := none
  status : Option Int := none
  validation : Option JsValue := none
deriving Repr

/-- The fields a plugin supplies to `createResponse`
(`Omit<AppErrorResponse, "metadata" | "error">`). -/
structure ResponseParams where
  global : Option JsValue := none
  code : Option (List JsValue) := none
  status : Option Int := none
  validation : Option JsValue := none
deriving Repr

/-- The priority table (`constants.ts`, `ErrorPriority`). -/
def ErrorPriority.FallbackError : Int := -1

/-- `ErrorPriority.StandardError`. -/
def ErrorPriority.StandardError : Int := 0

/-- `ErrorPriority.AxiosError`. -/
def ErrorPriority.AxiosError : Int := 1

/-- `ErrorPriority.ZodError`. -/
def ErrorPriority.ZodError : Int := 2

/-- The `ErrorPlugin` contract (`types.ts`): a name, an immutable priority,
a boolean `match` predicate and the fields the plugin's `serialize` passes to
the shared `createResponse` helper (which is the only way the concrete
plugins build their responses). -/
structure Plugin (α : Type) where
  name : String
  priority : Int
  matchFn : α → Bool
  params : α → ResponseParams

/-- `ErrorPlugin.createResponse`: the shared helper that assembles metadata
and the supplied fields into the final response shape. -/
def Plugin.createResponse (p : Plugin α) (e : α) (ps : ResponseParams) : AppErrorResponse α :=
  { metadata := { plugin := p.name, priority := p.priority }
    error := e
    global := ps.global
    code := ps.code
    status := ps.status
    validation := ps.validation }

/-- A plugin's `serialize`: `createResponse` applied to the plugin's fields. -/
def Plugin.serializeP (p : Plugin α) (e : α) : AppErrorResponse α :=
  p.createResponse e (p.params e)

/-!
## The orchestrator (`ErrorSerializer.ts`)

Callbacks perform external side effects, so they are modelled as opaque
identifiers of type `ι`; `processTrace` additionally returns the sequence of
callback invocations (callback, argument) the notification loop performs.
-/

/-- Orchestrator state: the ordered plugin list and the subscriber list. -/
structure ErrorSerializer (α ι : Type) where
  plugins : List (Plugin α)
  callbacks : List ι

/-- `new ErrorSerializer()`. -/
def ErrorSerializer.init : ErrorSerializer α ι :=
  { plugins := [], callbacks := [] }

/-- Stable insertion of a plugin into a descending-priority list: the new
element goes before the first entry whose priority is `≤` its own. -/
def insertByPriority (p : Plugin α) : List (Plugin α) → List (Plugin α)
  | [] => [p]
  | q :: rest =>
    if q.priority ≤ p.priority then p :: q :: rest else q :: insertByPriority p rest

/-- The stable sort `plugins.sort((a, b) => b.priority - a.priority)`:
descending by priority, ties keep their relative order. -/
def sortPlugins : List (Plugin α) → List (Plugin α)
  | [] => []
  | p :: rest => insertByPriority p (sortPlugins rest)

/-- `ErrorSerializer.register`: push the plugin, then re-sort the pipeline. -/
def ErrorSerializer.register (s : ErrorSerializer α ι) (p : Plugin α) : ErrorSerializer α ι :=
  { s with plugins := sortPlugins (s.plugins ++ [p]) }

/-- `ErrorSerializer.subscribe`: append a callback. -/
def ErrorSerializer.subscribe (s : ErrorSerializer α ι) (c : ι) : ErrorSerializer α ι :=
  { s with callbacks := s.callbacks ++ [c] }

/-- Register a whole list of plugins, in order. -/
def ErrorSerializer.registerAll (s : ErrorSerializer α ι) (L : List (Plugin α)) :
    ErrorSerializer α ι :=
  L.foldl ErrorSerializer.register s

/-- `ErrorSerializer.process`: probe the plugins in their current order, let
the first match serialize; otherwise synthesize the fallback response.
`toStr` models the JS `String(error)` conversion on the input type. -/
def ErrorSerializer.process (s : ErrorSerializer α ι) (toStr : α → String) (e : α) :
    AppErrorResponse α :=
  match s.plugins.find? (fun p => p.matchFn e) with
  | some p => p.serializeP e
  | none =>
    { metadata := { plugin := "ErrorSerializer", priority := ErrorPriority.FallbackError }
      error := e
      global := some (.str (toStr e))
      code := some [.str "UNHANDLED_EXCEPTION"]
      status := none
      validation := none }

/-- The callback notification loop of `process`: one invocation event
`(callback, output)` per registered callback, in list order. -/
def notifyLoop (cs : List ι) (out : AppErrorResponse α) : List (ι × AppErrorResponse α) :=
  match cs with
  | [] => []
  | c :: rest => (c, out) :: notifyLoop rest out

/-- `process` together with the trace of callback invocations it performs
after the output is fully constructed. -/
def ErrorSerializer.processTrace (s : ErrorSerializer α ι) (toStr : α → String) (e : α) :
    AppErrorResponse α × List (ι × AppErrorResponse α) :=
  let out := s.process toStr e
  (out, notifyLoop s.callbacks out)

/-!
## The Zod validation plugin (`plugins/ZodErrorPlugin.ts`)
-/

/-- A segment of a Zod issue path: a string key, a numeric index, or a
symbol (modelled by an opaque id). -/
inductive PathSeg where
  | str : String → PathSeg
  | num : Int → PathSeg
  | sym : Nat → PathSeg
deriving Repr, DecidableEq

/-- `typeof segment === "symbol"`. -/
def PathSeg.isSym : PathSeg → Bool
  | .sym _ => true
  | _ => false

/-- The property key a segment denotes (JS coerces numbers to strings). -/
def PathSeg.key : PathSeg → String
  | .str s => s
  | .num n => toString n
  | .sym _ => ""

/-- One Zod issue: a field path and a message (the only fields the plugin
reads). -/
structure ZodIssue where
  path : List PathSeg
  message : String
deriving Repr, DecidableEq

/-- The value a configured `mapIssue` callback may return. -/
structure MappedIssue where
  code : Option String := none
  message : Option String := none

/-- `ZodSerializationOptions.structure`. -/
inductive StructureMode where
  | flat : StructureMode
  | nested : StructureMode
deriving Repr, DecidableEq

/-- `ZodSerializationOptions.messageFormat`. -/
inductive MessageFormat where
  | array : MessageFormat
  | string : MessageFormat
deriving Repr, DecidableEq

/-- `ZodSerializationOptions` (the `structure` field is named
`structureMode` because `structure` is a Lean keyword). Defaults applied by
the constructor: `flat`, `array`, `"_"`, no `mapIssue`. -/
structure ZodSerializationOptions where
  structureMode : StructureMode := .flat
  messageFormat : MessageFormat := .array
  keySeparator : String := "_"
  mapIssue : Option (ZodIssue → Option MappedIssue) := none

/-- `ZodErrorPlugin.setFlatValue`: array mode appends the message to the
(created-on-demand) list at the key; string mode writes only when the current
value at the key is falsy. The record is an object; `push` on a truthy
non-array value would throw in JS and is unreachable for this record, modelled
as a no-op. -/
def ZodErrorPlugin.setFlatValue (fmt : MessageFormat) (record : JsValue) (key : String)
    (message : String) : JsValue :=
  match fmt with
  | .array =>
    let r1 := if truthyO (jsRead record key) then record
              else jsWrite record key (.arr [] [])
    (match jsRead r1 key with
     | some (.arr es ps) => jsWrite r1 key (.arr (es ++ [.str message]) ps)
     | _ => r1)
  | .string =>
    if truthyO (jsRead record key) then record
    else jsWrite record key (.str message)

/-- `ZodErrorPlugin.setNestedValue`: walk/create the object tree along the
path. At the terminal segment, array mode pushes onto (or re-creates) an
array, string mode assigns the message; at an intermediate segment, a falsy
or non-`typeof`-object value is replaced by a fresh empty object before
descending. The imperative in-place walk of the source is expressed as
recursion that writes the updated child back into its parent. -/
def ZodErrorPlugin.setNestedValue (fmt : MessageFormat) :
    JsValue → List String → String → JsValue
  | cur, [], _ => cur
  | cur, [k], message =>
    (match fmt with
     | .array =>
       let cur1 := if truthyO (jsRead cur k) then cur else jsWrite cur k (.arr [] [])
       (match jsRead cur1 k with
        | some (.arr es ps) => jsWrite cur1 k (.arr (es ++ [.str message]) ps)
        | _ => jsWrite cur1 k (.arr [.str message] []))
     | .string => jsWrite cur k (.str message))
  | cur, k :: k2 :: rest, message =>
    let child :=
      match jsRead cur k with
      | some c => if jsTruthy c && isObjectType c then c else .obj []
      | none => .obj []
    jsWrite cur k (ZodErrorPlugin.setNestedValue fmt child (k2 :: rest) message)

/-- Insertion into the running `Set` of codes: JS `Set.add` keeps first-added
order and suppresses duplicates. -/
def addCode (codes : List String) (c : String) : List String :=
  if c ∈ codes then codes else codes ++ [c]

/-- The per-issue message override and code accumulation performed when
`mapIssue` is configured (`if (mapped.message) ...; if (mapped.code) ...`,
both truthiness tests, so empty strings do not override/accumulate). -/
def ZodErrorPlugin.applyMapIssue (opts : ZodSerializationOptions) (issue : ZodIssue)
    (codes : List String) : String × List String :=
  match opts.mapIssue with
  | none => (issue.message, codes)
  | some f =>
    match f issue with
    | none => (issue.message, codes)
    | some mapped =>
      let message :=
        match mapped.message with
        | some m => if m.isEmpty then issue.message else m
        | none => issue.message
      let codes1 :=
        match mapped.code with
        | some c => if c.isEmpty then codes else addCode codes c
        | none => codes
      (message, codes1)

/-- `ZodErrorPlugin.formatIssues`: fold the issues, filtering symbol path
segments, applying `mapIssue`, and writing each message into the result
record in flat or nested form. Returns the record and the final code set. -/
def ZodErrorPlugin.formatIssues (opts : ZodSerializationOptions) :
    List ZodIssue → JsValue → List String → JsValue × List String
  | [], result, codes => (result, codes)
  | issue :: rest, result, codes =>
    let path := issue.path.filter (fun k => !k.isSym)
    let mc := ZodErrorPlugin.applyMapIssue opts issue codes
    let result1 :=
      if opts.structureMode = .nested then
        ZodErrorPlugin.setNestedValue opts.messageFormat result (path.map PathSeg.key) mc.1
      else
        ZodErrorPlugin.setFlatValue opts.messageFormat result
          (String.intercalate opts.keySeparator (path.map PathSeg.key)) mc.1
    ZodErrorPlugin.formatIssues opts rest result1 mc.2

/-- `ZodErrorPlugin.serialize` without the metadata wrapper: the fields it
hands to `createResponse` (codes seeded with `"102"`, `global` fixed,
`status` 422, `validation` the built record). -/
def ZodErrorPlugin.serializeParams (opts : ZodSerializationOptions)
    (issues : List ZodIssue) : ResponseParams :=
  let vc := ZodErrorPlugin.formatIssues opts issues (.obj []) ["102"]
  { global := some (.str "Validation error")
    code := some (vc.2.map JsValue.str)
    status := some 422
    validation := some vc.1 }

/-!
## The Axios HTTP-client plugin (`plugins/AxiosErrorPlugin.ts`)
-/

/-- The part of an Axios response the plugin reads: numeric status and body. -/
structure AxiosResponse where
  status : Int
  data : JsValue
deriving Repr

/-- The part of an `AxiosError` the plugin reads: the native message and the
optional response. -/
structure AxiosErrorData where
  message : String
  response : Option AxiosResponse
deriving Repr

/-- `Object.keys(v)` paired with the value at each key, for the values the
flattener can receive: object fields, array index keys followed by named
properties, character indices of a string. -/
def topFields : JsValue → List (String × JsValue)
  | .obj fs => fs
  | .arr es ps => (es.enum.map fun p => (Nat.repr p.1, p.2)) ++ ps
  | .str s => s.toList.enum.map fun p => (Nat.repr p.1, .str (String.singleton p.2))
  | _ => []

/-- Merge a list of entries into an accumulator record via repeated property
writes (`Object.assign(acc, entries)`). -/
def jsAssign (acc entries : List (String × JsValue)) : List (String × JsValue) :=
  entries.foldl (fun a kv => jsSetFields a kv.1 kv.2) acc

mutual

/-- Size measure of a JS value (for fuel computations). -/
def jsSize : JsValue → Nat
  | .arr es ps => 1 + jsSizeList es + jsSizeFields ps
  | .obj fs => 1 + jsSizeFields fs
  | _ => 1

/-- Size measure of a JS value list. -/
def jsSizeList : List JsValue → Nat
  | [] => 0
  | v :: vs => 1 + jsSize v + jsSizeList vs

/-- Size measure of a field list. -/
def jsSizeFields : List (String × JsValue) → Nat
  | [] => 0
  | (_, v) :: rest => 1 + jsSize v + jsSizeFields rest

end

/-- Fuel-indexed body of `AxiosErrorPlugin.flatten`, written over the
key/value list of the current object (`Object.keys(obj).reduce(...)`):
plain objects (not arrays, not null) are recursed into with the
dot-extended path and their flattened entries merged into the accumulator;
an array with exactly one element is unwrapped to that element; any other
value is stored as-is at its path. The fuel only drives Lean's structural
termination; `flattenFuel_congr` shows every sufficient fuel (the wrapper
passes `sizeOf`) computes the same result, so the fuel never runs out. -/
def AxiosErrorPlugin.flattenFuel :
    Nat → List (String × JsValue) → List (String × JsValue) → String → List (String × JsValue)
  | _, acc, [], _ => acc
  | 0, acc, _ :: _, _ => acc
  | n + 1, acc, (k, v) :: rest, pre =>
    let path := if pre = "" then k else pre ++ "." ++ k
    let acc1 :=
      match v with
      | .obj fs => jsAssign acc (AxiosErrorPlugin.flattenFuel n [] fs path)
      | .arr [x] _ => jsSetFields acc path x
      | w => jsSetFields acc path w
    AxiosErrorPlugin.flattenFuel n acc1 rest pre

/-- `AxiosErrorPlugin.flatten` over the entries of the current object:
`flattenFuel` at a sufficient fuel. -/
def AxiosErrorPlugin.flattenGo (acc l : List (String × JsValue)) (pre : String) :
    List (String × JsValue) :=
  AxiosErrorPlugin.flattenFuel (jsSizeFields l) acc l pre

/-- The response body (`error.response?.data`), `undefined` when absent. -/
def AxiosErrorPlugin.responseData (e : AxiosErrorData) : JsValue :=
  match e.response with
  | some r => r.data
  | none => .undefV

/-- `responseData?.message || responseData?.error?.message`. -/
def AxiosErrorPlugin.backendMessage (e : AxiosErrorData) : JsValue :=
  jsOr (jsProp (AxiosErrorPlugin.responseData e) "message")
    (jsProp (jsProp (AxiosErrorPlugin.responseData e) "error") "message")

/-- `responseData?.code || responseData?.errorCode`. -/
def AxiosErrorPlugin.backendCode (e : AxiosErrorData) : JsValue :=
  jsOr (jsProp (AxiosErrorPlugin.responseData e) "code")
    (jsProp (AxiosErrorPlugin.responseData e) "errorCode")

/-- `responseData?.validationErrors || responseData?.errors`. -/
def AxiosErrorPlugin.rawValidation (e : AxiosErrorData) : JsValue :=
  jsOr (jsProp (AxiosErrorPlugin.responseData e) "validationErrors")
    (jsProp (AxiosErrorPlugin.responseData e) "errors")

/-- `error.response?.status || 0`. -/
def AxiosErrorPlugin.statusOf (e : AxiosErrorData) : Int :=
  match e.response with
  | some r => if r.status ≠ 0 then r.status else 0
  | none => 0

/-- `finalMessage = backendMessage || error.message || "Network Error"`. -/
def AxiosErrorPlugin.finalMessage (e : AxiosErrorData) : JsValue :=
  jsOr (AxiosErrorPlugin.backendMessage e)
    (jsOr (.str e.message) (.str "Network Error"))

/-- The `finalCodes` computation: a truthy backend code array is used as-is;
a truthy non-array value is wrapped as `[String(value)]`; otherwise a single
synthesized `HTTP_{status}` code. -/
def AxiosErrorPlugin.finalCodes (e : AxiosErrorData) : List JsValue :=
  if jsTruthy (AxiosErrorPlugin.backendCode e) then
    match AxiosErrorPlugin.backendCode e with
    | .arr es _ => es
    | v => [.str (jsToStr v)]
  else [.str ("HTTP_" ++ toString (AxiosErrorPlugin.statusOf e))]

/-- `AxiosErrorPlugin.serialize` without the metadata wrapper. -/
def AxiosErrorPlugin.serializeParams (e : AxiosErrorData) : ResponseParams :=
  { global := some (AxiosErrorPlugin.finalMessage e)
    code := some (AxiosErrorPlugin.finalCodes e)
    status := some (AxiosErrorPlugin.statusOf e)
    validation :=
      if jsTruthy (AxiosErrorPlugin.rawValidation e) then
        some (.obj (AxiosErrorPlugin.flattenGo []
          (topFields (AxiosErrorPlugin.rawValidation e)) ""))
      else none }

/-!
## The input universe and the three concrete plugins
-/

/-- The universe of values handed to `process` in the concrete scenarios:
JS primitives, native `Error`s, `ZodError`s (with their issue list),
`AxiosError`s, and other opaque objects. -/
inductive ErrVal where
  | nullV : ErrVal
  | undefV : ErrVal
  | bool : Bool → ErrVal
  | num : Int → ErrVal
  | str : String → ErrVal
  | jsError : String → ErrVal
  | zodError : String → List ZodIssue → ErrVal
  | axiosError : AxiosErrorData → ErrVal
  | other : Nat → ErrVal

/-- `String(e)` on the input universe (`name: message` for error objects). -/
def jsStringErr : ErrVal → String
  | .nullV => "null"
  | .undefV => "undefined"
  | .bool b => if b then "true" else "false"
  | .num n => toString n
  | .str s => s
  | .jsError m => if m.isEmpty then "Error" else "Error: " ++ m
  | .zodError m _ => if m.isEmpty then "ZodError" else "ZodError: " ++ m
  | .axiosError d => if d.message.isEmpty then "AxiosError" else "AxiosError: " ++ d.message
  | .other _ => "[object Object]"

/-- `error instanceof ZodError`. -/
def isZodError : ErrVal → Bool
  | .zodError _ _ => true
  | _ => false

/-- `isAxiosError(error)`. -/
def isAxiosErrorV : ErrVal → Bool
  | .axiosError _ => true
  | _ => false

/-- `error instanceof Error` (Zod and Axios errors are `Error` subclasses). -/
def isNativeError : ErrVal → Bool
  | .jsError _ => true
  | .zodError _ _ => true
  | .axiosError _ => true
  | _ => false

/-- The `ZodErrorPlugin` as a registrable plugin over `ErrVal`
(`serialize` is only called after `match`; for non-Zod values the params
function is vacuously fed an empty issue list). -/
def ZodErrorPlugin.plugin (opts : ZodSerializationOptions) : Plugin ErrVal :=
  { name := "ZodErrorPlugin"
    priority := ErrorPriority.ZodError
    matchFn := isZodError
    params := fun e =>
      match e with
      | .zodError _ issues => ZodErrorPlugin.serializeParams opts issues
      | _ => ZodErrorPlugin.serializeParams opts [] }

/-- The `AxiosErrorPlugin` as a registrable plugin over `ErrVal`. -/
def AxiosErrorPlugin.plugin : Plugin ErrVal :=
  { name := "AxiosErrorPlugin"
    priority := ErrorPriority.AxiosError
    matchFn := isAxiosErrorV
    params := fun e =>
      match e with
      | .axiosError d => AxiosErrorPlugin.serializeParams d
      | _ => AxiosErrorPlugin.serializeParams { message := "", response := none } }

/-- The `StandardErrorPlugin` as a registrable plugin over `ErrVal`:
`global` is the error's own message, `code` the fixed `["INTERNAL_ERROR"]`. -/
def StandardErrorPlugin.plugin : Plugin ErrVal :=
  { name := "StandardErrorPlugin"
    priority := ErrorPriority.StandardError
    matchFn := isNativeError
    params := fun e =>
      let msg :=
        match e with
        | .jsError m => m
        | .zodError m _ => m
        | .axiosError d => d.message
        | _ => ""
      { global := some (.str msg), code := some [.str "INTERNAL_ERROR"] } }

/-!
## Supporting definitions for the statements
-/

/-- Maximum of a list of integers, `none` on the empty list. -/
def maxPr : List Int → Option Int
  | [] => none
  | a :: l =>
    match maxPr l with
    | none => some a
    | some b => some (max a b)

/-- The key sequence of a field list. -/
def fieldKeys (l : List (String × JsValue)) : List String := l.map Prod.fst

/-- The field list of an object value. -/
def objFields : JsValue → List (String × JsValue)
  | .obj fs => fs
  | _ => []

/-- Modelled from the spec: the recursive flattening algorithm in the
spec's own formulation — per key, recurse into plain objects with the
extended dotted prefix and merge the produced entries, unwrap one-element
arrays, and keep every other value as a leaf at its dotted path. Stated as
direct entry-list concatenation, to be compared with the accumulator-based
`AxiosErrorPlugin.flattenGo` from the source. -/
def flattenFromSpec : List (String × JsValue) → String → List (String × JsValue)
  | [], _ => []
  | (k, v) :: rest, pre =>
    let path := if pre = "" then k else pre ++ "." ++ k
    (match v with
     | .obj fs => flattenFromSpec fs path
     | .arr [x] _ => [(path, x)]
     | w => [(path, w)]) ++ flattenFromSpec rest pre

/-- The flat-mode validation key of an issue: symbol segments dropped, the
rest joined by the separator. -/
def flatKey (sep : String) (i : ZodIssue) : String :=
  String.intercalate sep ((i.path.filter (fun k => !k.isSym)).map PathSeg.key)

/-- The messages of all issues whose flat key is `key`, in reported order. -/
def msgsAt (sep key : String) (issues : List ZodIssue) : List JsValue :=
  (issues.filter (fun i => flatKey sep i = key)).map (fun i => .str i.message)

/-- A matches-everything plugin of priority 0 named "A" (for the
registration-order scenarios). -/
def pluginA : Plugin Unit :=
  { name := "A", priority := 0, matchFn := fun _ => true, params := fun _ => {} }

/-- A matches-everything plugin of priority 0 named "B". -/
def pluginB : Plugin Unit :=
  { name := "B", priority := 0, matchFn := fun _ => true, params := fun _ => {} }

/-- A matches-everything plugin of priority 1 named "C". -/
def pluginC : Plugin Unit :=
  { name := "C", priority := 1, matchFn := fun _ => true, params := fun _ => {} }


/-!
## Helper lemmas: sorting, maxima, notification
-/

theorem insertByPriority_perm (p : Plugin α) (l : List (Plugin α)) :
    List.Perm (insertByPriority p l) (p :: l) := by
  induction l with
  | nil => simp [insertByPriority]
  | cons q rest ih =>
    simp only [insertByPriority]
    by_cases h : q.priority ≤ p.priority
    · simp [h]
    · simp only [h, if_false]
      exact ((ih.cons q).trans (List.Perm.swap p q rest))

theorem sortPlugins_perm (l : List (Plugin α)) : List.Perm (sortPlugins l) l := by
  induction l with
  | nil => simp [sortPlugins]
  | cons p rest ih =>
    exact (insertByPriority_perm p (sortPlugins rest)).trans (ih.cons p)

theorem insertByPriority_sorted (p : Plugin α) (l : List (Plugin α))
    (h : l.Pairwise (fun a b => b.priority ≤ a.priority)) :
    (insertByPriority p l).Pairwise (fun a b => b.priority ≤ a.priority) := by
  induction l with
  | nil => simp [insertByPriority]
  | cons q rest ih =>
    rcases List.pairwise_cons.mp h with ⟨hq, hrest⟩
    simp only [insertByPriority]
    by_cases hle : q.priority ≤ p.priority
    · simp only [hle, if_true]
      refine List.pairwise_cons.mpr ⟨?_, h⟩
      intro b hb
      rcases List.mem_cons.mp hb with hb | hb
      · subst hb; exact hle
      · exact le_trans (hq _ hb) hle
    · simp only [hle, if_false]
      refine List.pairwise_cons.mpr ⟨?_, ih hrest⟩
      intro b hb
      rcases List.mem_cons.mp ((insertByPriority_perm p rest).mem_iff.mp hb) with hb2 | hb2
      · subst hb2; omega
      · exact hq _ hb2

theorem sortPlugins_sorted (l : List (Plugin α)) :
    (sortPlugins l).Pairwise (fun a b => b.priority ≤ a.priority) := by
  induction l with
  | nil => simp [sortPlugins]
  | cons p rest ih => exact insertByPriority_sorted p _ ih

theorem registerAll_plugins_perm (L : List (Plugin α)) :
    ∀ (s : ErrorSerializer α ι), List.Perm ((s.registerAll L).plugins) (s.plugins ++ L) := by
  induction L with
  | nil => intro s; simp [ErrorSerializer.registerAll]
  | cons p rest ih =>
    intro s
    have h1 : s.registerAll (p :: rest) = (s.register p).registerAll rest := rfl
    rw [h1]
    refine (ih (s.register p)).trans ?_
    have h2 : List.Perm ((s.register p).plugins) (s.plugins ++ [p]) := sortPlugins_perm _
    refine (h2.append_right rest).trans ?_
    rw [List.append_assoc, List.singleton_append]

theorem registerAll_sorted (L : List (Plugin α)) :
    ∀ (s : ErrorSerializer α ι),
      s.plugins.Pairwise (fun a b => b.priority ≤ a.priority) →
      ((s.registerAll L).plugins).Pairwise (fun a b => b.priority ≤ a.priority) := by
  induction L with
  | nil => intro s h; exact h
  | cons p rest ih =>
    intro s _
    exact ih (s.register p) (sortPlugins_sorted _)

theorem maxPr_eq_none {l : List Int} : maxPr l = none ↔ l = [] := by
  cases l with
  | nil => simp [maxPr]
  | cons a t => simp only [maxPr]; cases maxPr t <;> simp

theorem maxPr_mem : ∀ {l : List Int} {m : Int}, maxPr l = some m → m ∈ l := by
  intro l
  induction l with
  | nil => intro m h; simp [maxPr] at h
  | cons a t ih =>
    intro m h
    simp only [maxPr] at h
    cases ht : maxPr t with
    | none => rw [ht] at h; injection h with h; exact h ▸ List.mem_cons_self a t
    | some b =>
      rw [ht] at h; injection h with h
      rcases max_choice a b with hc | hc
      · rw [hc] at h; exact h ▸ List.mem_cons_self a t
      · rw [hc] at h; exact List.mem_cons_of_mem a (h ▸ ih ht)

theorem maxPr_le : ∀ {l : List Int} {m : Int}, maxPr l = some m → ∀ x ∈ l, x ≤ m := by
  intro l
  induction l with
  | nil => intro m _ x hx; simp at hx
  | cons a t ih =>
    intro m h x hx
    simp only [maxPr] at h
    cases ht : maxPr t with
    | none =>
      rw [ht] at h; injection h with h
      have ht2 : t = [] := maxPr_eq_none.mp ht
      subst ht2
      rcases List.mem_singleton.mp hx with hx
      omega
    | some b =>
      rw [ht] at h; injection h with h
      rcases List.mem_cons.mp hx with hx | hx
      · rw [← h, hx]; exact le_max_left _ _
      · rw [← h]; exact le_trans (ih ht x hx) (le_max_right _ _)

theorem maxPr_eq_some_iff {l : List Int} {m : Int} :
    maxPr l = some m ↔ m ∈ l ∧ ∀ x ∈ l, x ≤ m := by
  constructor
  · exact fun h => ⟨maxPr_mem h, maxPr_le h⟩
  · rintro ⟨hm, hub⟩
    cases hl : maxPr l with
    | none => rw [maxPr_eq_none] at hl; subst hl; simp at hm
    | some b =>
      have h1 : b ≤ m := hub b (maxPr_mem hl)
      have h2 : m ≤ b := maxPr_le hl m hm
      rw [le_antisymm h1 h2]

theorem maxPr_perm {l l2 : List Int} (h : List.Perm l l2) : maxPr l = maxPr l2 := by
  cases hl : maxPr l with
  | none =>
    rw [maxPr_eq_none] at hl; subst hl
    rw [h.symm.eq_nil]; rfl
  | some m =>
    rcases maxPr_eq_some_iff.mp hl with ⟨hm, hub⟩
    exact (maxPr_eq_some_iff.mpr ⟨h.mem_iff.mp hm, fun x hx => hub x (h.mem_iff.mpr hx)⟩).symm

theorem sorted_find_priority (e : α) :
    ∀ (P : List (Plugin α)),
      P.Pairwise (fun a b => b.priority ≤ a.priority) →
      maxPr ((P.filter (fun p => p.matchFn e)).map Plugin.priority) =
        (P.find? (fun p => p.matchFn e)).map Plugin.priority := by
  intro P
  induction P with
  | nil => intro _; rfl
  | cons p rest ih =>
    intro hs
    rcases List.pairwise_cons.mp hs with ⟨hp, hrest⟩
    cases hm : p.matchFn e with
    | true =>
      rw [List.find?_cons_of_pos _ (by simp [hm]), List.filter_cons_of_pos (by simp [hm])]
      simp only [List.map_cons, Option.map_some', maxPr]
      cases hmx : maxPr ((rest.filter (fun q => q.matchFn e)).map Plugin.priority) with
      | none => rfl
      | some b =>
        have hbmem := maxPr_mem hmx
        rcases List.mem_map.mp hbmem with ⟨q, hq, hqb⟩
        have hq2 : q ∈ rest := List.mem_of_mem_filter hq
        have : b ≤ p.priority := hqb ▸ hp q hq2
        simp [max_eq_left this]
    | false =>
      rw [List.find?_cons_of_neg _ (by simp [hm]), List.filter_cons_of_neg (by simp [hm])]
      exact ih hrest

theorem notifyLoop_map_fst (cs : List ι) (out : AppErrorResponse α) :
    (notifyLoop cs out).map Prod.fst = cs := by
  induction cs with
  | nil => rfl
  | cons c rest ih => simp [notifyLoop, ih]

theorem notifyLoop_eq_map (cs : List ι) (out : AppErrorResponse α) :
    notifyLoop cs out = cs.map (fun c => (c, out)) := by
  induction cs with
  | nil => rfl
  | cons c rest ih => simp [notifyLoop, ih]

/-!
## Claim theorems: orchestrator
-/

/-- C1: For every set of registered plugins and every input, the response
returned by `ErrorSerializer.process` has `metadata.priority` equal to the
priority of the highest-priority registered plugin whose match returns true
for that input (the probe runs in descending priority order and stops at the
first match); if no registered plugin matches, `metadata.priority` is -1. -/
theorem c1_priority_of_highest_matching {α : Type} (L : List (Plugin α))
    (toStr : α → String) (e : α) :
    ((((ErrorSerializer.init : ErrorSerializer α Unit)).registerAll L).process toStr e).metadata.priority
      = (maxPr ((L.filter (fun p => p.matchFn e)).map Plugin.priority)).getD (-1) := by
  have hperm : List.Perm (((ErrorSerializer.init : ErrorSerializer α Unit).registerAll L).plugins) L := by
    simpa [ErrorSerializer.init] using
      registerAll_plugins_perm L (ErrorSerializer.init : ErrorSerializer α Unit)
  have hsort := registerAll_sorted L (ErrorSerializer.init : ErrorSerializer α Unit)
    (by simp [ErrorSerializer.init])
  have hmp := maxPr_perm ((hperm.filter (fun p => p.matchFn e)).map Plugin.priority)
  rw [← hmp, sorted_find_priority e _ hsort]
  cases hf : (((ErrorSerializer.init : ErrorSerializer α Unit).registerAll L).plugins).find?
      (fun p => p.matchFn e) with
  | none => simp [ErrorSerializer.process, hf, ErrorPriority.FallbackError]
  | some p => simp [ErrorSerializer.process, hf, Plugin.serializeP, Plugin.createResponse]

/-- C5: For every input no registered plugin matches, `process` returns
(and never throws) the fallback response: `metadata.plugin` is the
`"ErrorSerializer"` sentinel, `metadata.priority` is -1, `global` is the
JS string representation of the input, `code` is `["UNHANDLED_EXCEPTION"]`,
and `status` and `validation` are absent. -/
theorem c5_fallback_response (L : List (Plugin ErrVal)) (e : ErrVal)
    (h : ∀ p ∈ L, p.matchFn e = false) :
    ((ErrorSerializer.init : ErrorSerializer ErrVal Unit).registerAll L).process jsStringErr e
      = { metadata := { plugin := "ErrorSerializer", priority := -1 }
          error := e
          global := some (.str (jsStringErr e))
          code := some [.str "UNHANDLED_EXCEPTION"]
          status := none
          validation := none } := by
  have hperm : List.Perm (((ErrorSerializer.init : ErrorSerializer ErrVal Unit).registerAll L).plugins) L := by
    simpa [ErrorSerializer.init] using
      registerAll_plugins_perm L (ErrorSerializer.init : ErrorSerializer ErrVal Unit)
  have hf : (((ErrorSerializer.init : ErrorSerializer ErrVal Unit).registerAll L).plugins).find?
      (fun p => p.matchFn e) = none := by
    rw [List.find?_eq_none]
    intro p hp
    simp [h p (hperm.mem_iff.mp hp)]
  simp [ErrorSerializer.process, hf, ErrorPriority.FallbackError]

/-- Witness for C5 at concrete inputs: with no plugins registered, `process`
on the number 500 yields the fallback with `global = "500"`; likewise `null`
and `undefined` stringify to `"null"` and `"undefined"`. -/
theorem c5_fallback_response_witness :
    ((ErrorSerializer.init : ErrorSerializer ErrVal Unit).registerAll []).process jsStringErr (.num 500)
      = { metadata := { plugin := "ErrorSerializer", priority := -1 }
          error := .num 500
          global := some (.str "500")
          code := some [.str "UNHANDLED_EXCEPTION"]
          status := none
          validation := none }
    ∧ jsStringErr .nullV = "null" ∧ jsStringErr .undefV = "undefined" := by
  refine ⟨?_, rfl, rfl⟩
  have h := c5_fallback_response [] (.num 500) (by intro p hp; simp at hp)
  simpa using h

/-- C6: For every serializer state and every input, the response's `error`
field is the original input value itself (modelled as equality in the pure
embedding; the code stores the received reference without copying, cloning
or stringifying), in plugin-produced and fallback responses alike. -/
theorem c6_error_identity (s : ErrorSerializer α ι) (toStr : α → String) (e : α) :
    (s.process toStr e).error = e := by
  cases hf : s.plugins.find? (fun p => p.matchFn e) with
  | none => simp [ErrorSerializer.process, hf]
  | some p => simp [ErrorSerializer.process, hf, Plugin.serializeP, Plugin.createResponse]

/-- C7: On every `process` call, the notification loop invokes each
subscribed callback exactly once, in subscription order, and every
invocation receives exactly the object `process` returns: the invocation
trace is the subscriber list paired with the returned output. -/
theorem c7_callbacks_once_in_order (s : ErrorSerializer α ι) (toStr : α → String) (e : α) :
    (s.processTrace toStr e).2 = s.callbacks.map (fun c => (c, s.process toStr e))
      ∧ (s.processTrace toStr e).1 = s.process toStr e := by
  exact ⟨notifyLoop_eq_map s.callbacks (s.process toStr e), rfl⟩

/-- C8 counterexample: two equal-priority plugins that both match. The
stable re-sort keeps registration order for ties, so the first-registered
plugin fires: registering A then B serializes with A, registering B then A
serializes with B, and the two `process` results differ. The claim's
universally quantified "registration order never affects the result" is
therefore false as stated. -/
theorem c8_registration_order_counterexample :
    ¬ (((ErrorSerializer.init : ErrorSerializer Unit Unit).registerAll [pluginA, pluginB]).process
          (fun _ => "") ()
        = ((ErrorSerializer.init : ErrorSerializer Unit Unit).registerAll [pluginB, pluginA]).process
          (fun _ => "") ()) := by
  intro h
  have hA : (((ErrorSerializer.init : ErrorSerializer Unit Unit).registerAll [pluginA, pluginB]).process
      (fun _ => "") ()).metadata.plugin = "A" := rfl
  have hB : (((ErrorSerializer.init : ErrorSerializer Unit Unit).registerAll [pluginB, pluginA]).process
      (fun _ => "") ()).metadata.plugin = "B" := rfl
  rw [h, hB] at hA
  exact absurd hA (by decide)

/-- C8 (amended): for two plugins of distinct priorities, registering them
in either order yields identical `process` results for every input — the
re-sort on every `register` puts the higher-priority plugin first in both
cases. (For equal priorities the stable sort preserves registration order,
so the claim as stated fails; see the counterexample.) -/
theorem c8_distinct_priorities_commute {α : Type} (p q : Plugin α)
    (toStr : α → String) (e : α) (h : p.priority ≠ q.priority) :
    (((ErrorSerializer.init : ErrorSerializer α Unit)).registerAll [p, q]).process toStr e
      = (((ErrorSerializer.init : ErrorSerializer α Unit)).registerAll [q, p]).process toStr e := by
  have hpq : ((ErrorSerializer.init : ErrorSerializer α Unit).registerAll [p, q]).plugins
      = insertByPriority p [q] := rfl
  have hqp : ((ErrorSerializer.init : ErrorSerializer α Unit).registerAll [q, p]).plugins
      = insertByPriority q [p] := rfl
  have hlist : insertByPriority p [q] = insertByPriority q [p] := by
    simp only [insertByPriority]
    by_cases h1 : q.priority ≤ p.priority
    · have h2 : ¬ p.priority ≤ q.priority := by omega
      simp [h1, h2]
    · have h2 : p.priority ≤ q.priority := by omega
      simp [h1, h2]
  simp only [ErrorSerializer.process, hpq, hqp, hlist]

/-- Witness for C8 (amended) at concrete plugins of priorities 1 and 0. -/
theorem c8_distinct_priorities_commute_witness :
    (((ErrorSerializer.init : ErrorSerializer Unit Unit)).registerAll [pluginC, pluginB]).process
        (fun _ => "") ()
      = (((ErrorSerializer.init : ErrorSerializer Unit Unit)).registerAll [pluginB, pluginC]).process
        (fun _ => "") () :=
  c8_distinct_priorities_commute pluginC pluginB (fun _ => "") () (by decide)

/-!
## Claim theorems: Zod plugin, string mode (C3)
-/

/-- C3: evaluation of the code at the failing input. With
`messageFormat: "string"` and two issues on the same path, flat mode keeps
the FIRST message (`if (!obj[key])` guard), but nested mode stores the
SECOND: `setNestedValue` assigns the terminal key unconditionally, so the
last write wins, contradicting the claim (and the options doc comment
"'string': first error message only") for nested mode. -/
theorem c3_nested_string_last_write_eval :
    (ZodErrorPlugin.formatIssues
        { structureMode := .flat, messageFormat := .string }
        [{ path := [.str "a"], message := "first" },
         { path := [.str "a"], message := "second" }] (.obj []) ["102"]).1
      = .obj [("a", .str "first")]
    ∧ (ZodErrorPlugin.formatIssues
        { structureMode := .nested, messageFormat := .string }
        [{ path := [.str "a"], message := "first" },
         { path := [.str "a"], message := "second" }] (.obj []) ["102"]).1
      = .obj [("a", .str "second")] :=
  ⟨rfl, rfl⟩

/-!
## Field-list lemmas
-/

theorem jsGetFields_set_self (fs : List (String × JsValue)) (k : String) (v : JsValue) :
    jsGetFields (jsSetFields fs k v) k = some v := by
  induction fs with
  | nil => simp [jsSetFields, jsGetFields]
  | cons h t ih =>
    obtain ⟨k1, v1⟩ := h
    by_cases hk : k1 = k
    · simp [jsSetFields, jsGetFields, hk]
    · simp [jsSetFields, jsGetFields, hk, ih]

theorem jsGetFields_set_ne (fs : List (String × JsValue)) (k key : String) (v : JsValue)
    (h : key ≠ k) : jsGetFields (jsSetFields fs k v) key = jsGetFields fs key := by
  induction fs with
  | nil => simp [jsSetFields, jsGetFields, Ne.symm h]
  | cons hd t ih =>
    obtain ⟨k1, v1⟩ := hd
    by_cases hk : k1 = k
    · subst hk
      simp [jsSetFields, jsGetFields, Ne.symm h]
    · by_cases hk2 : k1 = key
      · simp [jsSetFields, jsGetFields, hk, hk2, h]
      · simp [jsSetFields, jsGetFields, hk, hk2, ih]

theorem jsSetFields_set_set (fs : List (String × JsValue)) (k : String) (v w : JsValue) :
    jsSetFields (jsSetFields fs k v) k w = jsSetFields fs k w := by
  induction fs with
  | nil => simp [jsSetFields]
  | cons hd t ih =>
    obtain ⟨k1, v1⟩ := hd
    by_cases hk : k1 = k
    · simp [jsSetFields, hk]
    · simp [jsSetFields, hk, ih]

/-- Complete behaviour of array-mode `setFlatValue` on an object record:
the result is still an object; other keys are untouched; a falsy slot
becomes the singleton message array; an array slot gets the message
appended. -/
theorem setFlatValue_array_obj (fs : List (String × JsValue)) (k : String) (m : String) :
    ∃ fs1, ZodErrorPlugin.setFlatValue .array (.obj fs) k m = .obj fs1
      ∧ (∀ key, key ≠ k → jsGetFields fs1 key = jsGetFields fs key)
      ∧ (truthyO (jsGetFields fs k) = false → jsGetFields fs1 k = some (.arr [.str m] []))
      ∧ (∀ es ps, jsGetFields fs k = some (.arr es ps) →
          jsGetFields fs1 k = some (.arr (es ++ [.str m]) ps)) := by
  by_cases ht : truthyO (jsGetFields fs k)
  · cases hk : jsGetFields fs k with
    | none => rw [hk] at ht; simp [truthyO] at ht
    | some v =>
      rw [hk] at ht
      cases v with
      | arr es ps =>
        refine ⟨jsSetFields fs k (.arr (es ++ [.str m]) ps), ?_, ?_, ?_, ?_⟩
        · simp [ZodErrorPlugin.setFlatValue, jsRead, hk, ht, jsWrite]
        · intro key hkey; exact jsGetFields_set_ne fs k key _ hkey
        · intro hf; simp [truthyO, jsTruthy] at hf
        · intro es2 ps2 h2
          injection h2 with h2
          injection h2 with h2a h2b
          subst h2a; subst h2b
          exact jsGetFields_set_self fs k _
      | nullV => simp [truthyO, jsTruthy] at ht
      | undefV => simp [truthyO, jsTruthy] at ht
      | bool b =>
        refine ⟨fs, ?_, fun _ _ => rfl, ?_, ?_⟩
        · simp [ZodErrorPlugin.setFlatValue, jsRead, hk, ht]
        · intro hf; rw [ht] at hf; simp at hf
        · intro es2 ps2 h2; simp at h2
      | num n =>
        refine ⟨fs, ?_, fun _ _ => rfl, ?_, ?_⟩
        · simp [ZodErrorPlugin.setFlatValue, jsRead, hk, ht]
        · intro hf; rw [ht] at hf; simp at hf
        · intro es2 ps2 h2; simp at h2
      | str s =>
        refine ⟨fs, ?_, fun _ _ => rfl, ?_, ?_⟩
        · simp [ZodErrorPlugin.setFlatValue, jsRead, hk, ht]
        · intro hf; rw [ht] at hf; simp at hf
        · intro es2 ps2 h2; simp at h2
      | obj fs2 =>
        refine ⟨fs, ?_, fun _ _ => rfl, ?_, ?_⟩
        · simp [ZodErrorPlugin.setFlatValue, jsRead, hk, ht]
        · intro hf; rw [ht] at hf; simp at hf
        · intro es2 ps2 h2; simp at h2
  · rw [Bool.not_eq_true] at ht
    refine ⟨jsSetFields fs k (.arr [.str m] []), ?_, ?_, ?_, ?_⟩
    · have h1 : jsGetFields (jsSetFields fs k (JsValue.arr [] [])) k = some (.arr [] []) :=
        jsGetFields_set_self fs k _
      simp [ZodErrorPlugin.setFlatValue, jsRead, ht, h1, jsWrite, jsSetFields_set_set]
    · intro key hkey; exact jsGetFields_set_ne fs k key _ hkey
    · intro _; exact jsGetFields_set_self fs k _
    · intro es ps h2
      rw [h2] at ht; simp [truthyO, jsTruthy] at ht

theorem msgsAt_cons_hit (sep key : String) (i : ZodIssue) (issues : List ZodIssue)
    (h : flatKey sep i = key) :
    msgsAt sep key (i :: issues) = .str i.message :: msgsAt sep key issues := by
  simp [msgsAt, List.filter_cons, h]

theorem msgsAt_cons_miss (sep key : String) (i : ZodIssue) (issues : List ZodIssue)
    (h : ¬ flatKey sep i = key) :
    msgsAt sep key (i :: issues) = msgsAt sep key issues := by
  simp [msgsAt, List.filter_cons, h]

/-- One step of `formatIssues` in flat/array mode with no `mapIssue`. -/
theorem formatIssues_flat_array_step (sep : String) (issue : ZodIssue)
    (rest : List ZodIssue) (r : JsValue) (codes : List String) :
    ZodErrorPlugin.formatIssues
        { structureMode := .flat, messageFormat := .array, keySeparator := sep, mapIssue := none }
        (issue :: rest) r codes
      = ZodErrorPlugin.formatIssues
        { structureMode := .flat, messageFormat := .array, keySeparator := sep, mapIssue := none }
        rest (ZodErrorPlugin.setFlatValue .array r (flatKey sep issue) issue.message) codes := by
  simp [ZodErrorPlugin.formatIssues, ZodErrorPlugin.applyMapIssue, flatKey]

/-- Characterization of the flat/array validation record at a fixed key:
starting from a record whose slot at the key is absent or a plain message
array, the final slot collects the initial entries followed by the messages
of exactly the issues whose flat key is that key, in reported order. -/
theorem formatIssues_flat_array_get (sep key : String) :
    ∀ (issues : List ZodIssue) (fs : List (String × JsValue)) (codes : List String),
      (jsGetFields fs key = none ∨ ∃ es, jsGetFields fs key = some (.arr es [])) →
      jsGetFields (objFields ((ZodErrorPlugin.formatIssues
          { structureMode := .flat, messageFormat := .array, keySeparator := sep, mapIssue := none }
          issues (.obj fs) codes).1)) key
        = (match jsGetFields fs key with
           | some (.arr es _) => some (.arr (es ++ msgsAt sep key issues) [])
           | _ =>
             match msgsAt sep key issues with
             | [] => none
             | ms => some (.arr ms [])) := by
  intro issues
  induction issues with
  | nil =>
    intro fs codes hinv
    rcases hinv with h | ⟨es, h⟩
    · simp [ZodErrorPlugin.formatIssues, objFields, msgsAt, h]
    · simp [ZodErrorPlugin.formatIssues, objFields, msgsAt, h]
  | cons issue rest ih =>
    intro fs codes hinv
    rw [formatIssues_flat_array_step]
    obtain ⟨fs1, hfs1, hne, hfalsy, harr⟩ :=
      setFlatValue_array_obj fs (flatKey sep issue) issue.message
    rw [hfs1]
    by_cases hk : flatKey sep issue = key
    · subst hk
      rcases hinv with h | ⟨es, h⟩
      · have h1 : jsGetFields fs1 (flatKey sep issue) = some (.arr [.str issue.message] []) :=
          hfalsy (by rw [h]; rfl)
        have h2 := ih fs1 codes (Or.inr ⟨[.str issue.message], h1⟩)
        rw [h2, h1, h, msgsAt_cons_hit sep _ issue rest rfl]
        simp
      · have h1 : jsGetFields fs1 (flatKey sep issue)
            = some (.arr (es ++ [.str issue.message]) []) := harr es [] h
        have h2 := ih fs1 codes (Or.inr ⟨es ++ [.str issue.message], h1⟩)
        rw [h2, h1, h, msgsAt_cons_hit sep _ issue rest rfl]
        simp
    · have h1 : jsGetFields fs1 key = jsGetFields fs key := hne key (fun hh => hk hh.symm)
      have h2 := ih fs1 codes (by rw [h1]; exact hinv)
      rw [h2, h1, msgsAt_cons_miss sep key issue rest hk]

/-- C10: In flat mode, an issue whose field path is empty — or becomes
empty after the symbol segments are filtered out — still produces an entry
in the validation map, stored under the empty-string key `""`; with
`messageFormat: "array"` its message is appended to the list at that key. -/
theorem c10_empty_path_empty_key (sep : String) (issues : List ZodIssue) (i : ZodIssue)
    (hi : i ∈ issues) (hp : i.path.filter (fun k => !k.isSym) = []) :
    ∃ es, jsGetFields (objFields ((ZodErrorPlugin.formatIssues
        { structureMode := .flat, messageFormat := .array, keySeparator := sep, mapIssue := none }
        issues (.obj []) ["102"]).1)) ""
      = some (.arr es []) ∧ (.str i.message : JsValue) ∈ es := by
  have hchar := formatIssues_flat_array_get sep "" issues [] ["102"] (Or.inl rfl)
  have hkey : flatKey sep i = "" := by
    simp only [flatKey, hp, List.map_nil]
    rfl
  have hmem : (.str i.message : JsValue) ∈ msgsAt sep "" issues := by
    refine List.mem_map_of_mem _ (List.mem_filter.mpr ⟨hi, ?_⟩)
    simp [hkey]
  rw [hchar]
  cases hm : msgsAt sep "" issues with
  | nil => rw [hm] at hmem; simp at hmem
  | cons m ms =>
    rw [hm] at hmem
    exact ⟨m :: ms, rfl, hmem⟩

/-- Witness for C10: a single issue whose path is one symbol segment lands
at the empty-string key with its message in the list there. -/
theorem c10_empty_path_empty_key_witness :
    ∃ es, jsGetFields (objFields ((ZodErrorPlugin.formatIssues
        { structureMode := .flat, messageFormat := .array, keySeparator := "_", mapIssue := none }
        [{ path := [.sym 0], message := "m" }] (.obj []) ["102"]).1)) ""
      = some (.arr es []) ∧ (.str "m" : JsValue) ∈ es :=
  c10_empty_path_empty_key "_" [{ path := [.sym 0], message := "m" }]
    { path := [.sym 0], message := "m" } (by simp) (by rfl)

/-- C9 counterexample: nested/array mode, issue paths `["a"]` then
`["a","b"]`. The message array previously written at `"a"` is
`typeof "object"`, so — contrary to the claim — it is NOT overwritten with a
fresh empty object: the walk descends into the array and attaches `"b"` as a
property on it, keeping the earlier message `"x"`. -/
theorem c9_array_not_overwritten_counterexample :
    (ZodErrorPlugin.formatIssues { structureMode := .nested, messageFormat := .array }
        [{ path := [.str "a"], message := "x" }, { path := [.str "a", .str "b"], message := "y" }]
        (.obj []) ["102"]).1
      = .obj [("a", .arr [.str "x"] [("b", .arr [.str "y"] [])])]
    ∧ ¬ ((ZodErrorPlugin.formatIssues { structureMode := .nested, messageFormat := .array }
        [{ path := [.str "a"], message := "x" }, { path := [.str "a", .str "b"], message := "y" }]
        (.obj []) ["102"]).1
      = .obj [("a", .obj [("b", .arr [.str "y"] [])])]) := by
  have hb : parseIndex "b" = none := by decide
  have h1 : (ZodErrorPlugin.formatIssues { structureMode := .nested, messageFormat := .array }
      [{ path := [.str "a"], message := "x" }, { path := [.str "a", .str "b"], message := "y" }]
      (.obj []) ["102"]).1
    = .obj [("a", .arr [.str "x"] [("b", .arr [.str "y"] [])])] := by
    simp [ZodErrorPlugin.formatIssues, ZodErrorPlugin.applyMapIssue, PathSeg.isSym, PathSeg.key,
      ZodErrorPlugin.setNestedValue, jsRead, jsWrite, jsGetFields, jsSetFields, jsTruthy,
      isObjectType, truthyO, hb]
  refine ⟨h1, ?_⟩
  intro h
  rw [h1] at h
  simp at h

/-- C9 (amended): while walking a nested path, an intermediate slot holding
a falsy or non-`typeof`-object value — such as a previously written string
leaf — is overwritten with a fresh empty object before descending (last
write wins); but a previously written message ARRAY is `typeof "object"`
and is not overwritten: the walk descends into it and stores the next
segment as a property on the array. -/
theorem c9_leaf_overwritten_array_kept (a b m1 m2 : String)
    (hb : parseIndex b = none) :
    (ZodErrorPlugin.formatIssues { structureMode := .nested, messageFormat := .string }
        [{ path := [.str a], message := m1 }, { path := [.str a, .str b], message := m2 }]
        (.obj []) ["102"]).1
      = .obj [(a, .obj [(b, .str m2)])]
    ∧ (ZodErrorPlugin.formatIssues { structureMode := .nested, messageFormat := .array }
        [{ path := [.str a], message := m1 }, { path := [.str a, .str b], message := m2 }]
        (.obj []) ["102"]).1
      = .obj [(a, .arr [.str m1] [(b, .arr [.str m2] [])])] := by
  constructor
  · simp [ZodErrorPlugin.formatIssues, ZodErrorPlugin.applyMapIssue, PathSeg.isSym, PathSeg.key,
      ZodErrorPlugin.setNestedValue, jsRead, jsWrite, jsGetFields, jsSetFields, jsTruthy,
      isObjectType, truthyO]
  · simp [ZodErrorPlugin.formatIssues, ZodErrorPlugin.applyMapIssue, PathSeg.isSym, PathSeg.key,
      ZodErrorPlugin.setNestedValue, jsRead, jsWrite, jsGetFields, jsSetFields, jsTruthy,
      isObjectType, truthyO, hb]

/-- Witness for C9 (amended) at concrete keys and messages. -/
theorem c9_leaf_overwritten_array_kept_witness :
    (ZodErrorPlugin.formatIssues { structureMode := .nested, messageFormat := .string }
        [{ path := [.str "u"], message := "s1" }, { path := [.str "u", .str "v"], message := "s2" }]
        (.obj []) ["102"]).1
      = .obj [("u", .obj [("v", .str "s2")])]
    ∧ (ZodErrorPlugin.formatIssues { structureMode := .nested, messageFormat := .array }
        [{ path := [.str "u"], message := "s1" }, { path := [.str "u", .str "v"], message := "s2" }]
        (.obj []) ["102"]).1
      = .obj [("u", .arr [.str "s1"] [("v", .arr [.str "s2"] [])])] :=
  c9_leaf_overwritten_array_kept "u" "v" "s1" "s2" (by rfl)

/-!
## Flatten lemmas (C2)
-/

theorem flattenFuel_congr :
    ∀ (n : Nat) (l : List (String × JsValue)) (m : Nat) (acc : List (String × JsValue))
      (pre : String), jsSizeFields l ≤ n → jsSizeFields l ≤ m →
      AxiosErrorPlugin.flattenFuel n acc l pre = AxiosErrorPlugin.flattenFuel m acc l pre := by
  intro n
  induction n with
  | zero =>
    intro l m acc pre hn _
    cases l with
    | nil => cases m <;> rfl
    | cons hd rest =>
      obtain ⟨k, v⟩ := hd
      simp only [jsSizeFields] at hn
      omega
  | succ n ih =>
    intro l m acc pre hn hm
    cases l with
    | nil => cases m <;> rfl
    | cons hd rest =>
      obtain ⟨k, v⟩ := hd
      cases m with
      | zero =>
        simp only [jsSizeFields] at hm
        omega
      | succ m2 =>
        simp only [jsSizeFields] at hn hm
        cases v with
        | obj fs =>
          simp only [AxiosErrorPlugin.flattenFuel]
          simp only [jsSize] at hn hm
          rw [ih fs m2 [] _ (by omega) (by omega)]
          exact ih rest m2 _ pre (by omega) (by omega)
        | nullV =>
          simp only [AxiosErrorPlugin.flattenFuel]
          exact ih rest m2 _ pre (by omega) (by omega)
        | undefV =>
          simp only [AxiosErrorPlugin.flattenFuel]
          exact ih rest m2 _ pre (by omega) (by omega)
        | bool b =>
          simp only [AxiosErrorPlugin.flattenFuel]
          exact ih rest m2 _ pre (by omega) (by omega)
        | num i =>
          simp only [AxiosErrorPlugin.flattenFuel]
          exact ih rest m2 _ pre (by omega) (by omega)
        | str s =>
          simp only [AxiosErrorPlugin.flattenFuel]
          exact ih rest m2 _ pre (by omega) (by omega)
        | arr es ps =>
          match es with
          | [] =>
            simp only [AxiosErrorPlugin.flattenFuel]
            exact ih rest m2 _ pre (by omega) (by omega)
          | [x] =>
            simp only [AxiosErrorPlugin.flattenFuel]
            exact ih rest m2 _ pre (by omega) (by omega)
          | x :: y :: tl =>
            simp only [AxiosErrorPlugin.flattenFuel]
            exact ih rest m2 _ pre (by omega) (by omega)

theorem flattenGo_nil (acc : List (String × JsValue)) (pre : String) :
    AxiosErrorPlugin.flattenGo acc [] pre = acc := by
  simp [AxiosErrorPlugin.flattenGo, AxiosErrorPlugin.flattenFuel]

theorem flattenGo_cons_obj (acc : List (String × JsValue)) (k : String)
    (fs rest : List (String × JsValue)) (pre : String) :
    AxiosErrorPlugin.flattenGo acc ((k, .obj fs) :: rest) pre =
      AxiosErrorPlugin.flattenGo
        (jsAssign acc (AxiosErrorPlugin.flattenGo [] fs
          (if pre = "" then k else pre ++ "." ++ k))) rest pre := by
  show AxiosErrorPlugin.flattenFuel (jsSizeFields ((k, JsValue.obj fs) :: rest)) acc _ pre = _
  have hsz : jsSizeFields ((k, JsValue.obj fs) :: rest)
      = (1 + jsSizeFields fs + jsSizeFields rest) + 1 := by
    simp only [jsSizeFields, jsSize]
    omega
  rw [hsz]
  simp only [AxiosErrorPlugin.flattenFuel]
  rw [flattenFuel_congr _ fs (jsSizeFields fs) [] _ (by omega) (le_refl _)]
  rw [flattenFuel_congr _ rest (jsSizeFields rest) _ pre (by omega) (le_refl _)]
  rfl

theorem flattenGo_cons_arr1 (acc : List (String × JsValue)) (k : String) (x : JsValue)
    (ps : List (String × JsValue)) (rest : List (String × JsValue)) (pre : String) :
    AxiosErrorPlugin.flattenGo acc ((k, .arr [x] ps) :: rest) pre =
      AxiosErrorPlugin.flattenGo
        (jsSetFields acc (if pre = "" then k else pre ++ "." ++ k) x) rest pre := by
  show AxiosErrorPlugin.flattenFuel (jsSizeFields ((k, JsValue.arr [x] ps) :: rest)) acc _ pre = _
  have hsz : jsSizeFields ((k, JsValue.arr [x] ps) :: rest)
      = (jsSize (JsValue.arr [x] ps) + jsSizeFields rest) + 1 := by
    simp only [jsSizeFields]
    omega
  rw [hsz]
  simp only [AxiosErrorPlugin.flattenFuel]
  rw [flattenFuel_congr _ rest (jsSizeFields rest) _ pre (by omega) (le_refl _)]
  rfl

/-- Leaf step of the flattener for every value that is neither a plain
object nor a one-element array: the value is stored as-is at its path. -/
theorem flattenGo_cons_leaf (acc : List (String × JsValue)) (k : String) (v : JsValue)
    (rest : List (String × JsValue)) (pre : String)
    (hobj : ∀ fs, v ≠ .obj fs) (harr : ∀ x ps, v ≠ .arr [x] ps) :
    AxiosErrorPlugin.flattenGo acc ((k, v) :: rest) pre =
      AxiosErrorPlugin.flattenGo
        (jsSetFields acc (if pre = "" then k else pre ++ "." ++ k) v) rest pre := by
  show AxiosErrorPlugin.flattenFuel (jsSizeFields ((k, v) :: rest)) acc _ pre = _
  have hsz : jsSizeFields ((k, v) :: rest) = (jsSize v + jsSizeFields rest) + 1 := by
    simp only [jsSizeFields]
    omega
  rw [hsz]
  cases v with
  | obj fs => exact absurd rfl (hobj fs)
  | nullV =>
    simp only [AxiosErrorPlugin.flattenFuel]
    rw [flattenFuel_congr _ rest (jsSizeFields rest) _ pre (by omega) (le_refl _)]
    rfl
  | undefV =>
    simp only [AxiosErrorPlugin.flattenFuel]
    rw [flattenFuel_congr _ rest (jsSizeFields rest) _ pre (by omega) (le_refl _)]
    rfl
  | bool b =>
    simp only [AxiosErrorPlugin.flattenFuel]
    rw [flattenFuel_congr _ rest (jsSizeFields rest) _ pre (by omega) (le_refl _)]
    rfl
  | num i =>
    simp only [AxiosErrorPlugin.flattenFuel]
    rw [flattenFuel_congr _ rest (jsSizeFields rest) _ pre (by omega) (le_refl _)]
    rfl
  | str s =>
    simp only [AxiosErrorPlugin.flattenFuel]
    rw [flattenFuel_congr _ rest (jsSizeFields rest) _ pre (by omega) (le_refl _)]
    rfl
  | arr es ps =>
    match es with
    | [] =>
      simp only [AxiosErrorPlugin.flattenFuel]
      rw [flattenFuel_congr _ rest (jsSizeFields rest) _ pre (by omega) (le_refl _)]
      rfl
    | [x] => exact absurd rfl (harr x ps)
    | x :: y :: tl =>
      simp only [AxiosErrorPlugin.flattenFuel]
      rw [flattenFuel_congr _ rest (jsSizeFields rest) _ pre (by omega) (le_refl _)]
      rfl

theorem fieldKeys_cons (k : String) (v : JsValue) (t : List (String × JsValue)) :
    fieldKeys ((k, v) :: t) = k :: fieldKeys t := rfl

theorem fieldKeys_append (a b : List (String × JsValue)) :
    fieldKeys (a ++ b) = fieldKeys a ++ fieldKeys b := by
  simp [fieldKeys]

theorem jsSetFields_fresh (acc : List (String × JsValue)) (k : String) (v : JsValue)
    (h : k ∉ fieldKeys acc) : jsSetFields acc k v = acc ++ [(k, v)] := by
  induction acc with
  | nil => rfl
  | cons hd t ih =>
    obtain ⟨k1, v1⟩ := hd
    rw [fieldKeys_cons, List.mem_cons] at h
    push_neg at h
    simp [jsSetFields, Ne.symm h.1, ih h.2]

theorem jsAssign_of_disjoint (es : List (String × JsValue)) :
    ∀ (acc : List (String × JsValue)),
      (fieldKeys es).Nodup →
      (∀ x ∈ fieldKeys es, x ∉ fieldKeys acc) →
      jsAssign acc es = acc ++ es := by
  induction es with
  | nil => intro acc _ _; simp [jsAssign]
  | cons hd t ih =>
    obtain ⟨k, v⟩ := hd
    intro acc hnd hdis
    rw [fieldKeys_cons] at hnd hdis
    have hk : k ∉ fieldKeys acc := hdis k (List.mem_cons_self _ _)
    have h1 : jsAssign acc ((k, v) :: t) = jsAssign (jsSetFields acc k v) t := rfl
    rw [h1, jsSetFields_fresh acc k v hk]
    have hknot : k ∉ fieldKeys t := (List.nodup_cons.mp hnd).1
    have hnd2 := (List.nodup_cons.mp hnd).2
    have hdis2 : ∀ x ∈ fieldKeys t, x ∉ fieldKeys (acc ++ [(k, v)]) := by
      intro x hx
      rw [fieldKeys_append]
      simp only [List.mem_append]
      rintro (hxa | hxk)
      · exact hdis x (List.mem_cons_of_mem _ hx) hxa
      · have hxke : x = k := by simpa [fieldKeys] using hxk
        exact hknot (hxke ▸ hx)
    rw [ih _ hnd2 hdis2]
    simp

theorem flattenGo_eq_spec_aux :
    ∀ (n : Nat) (l : List (String × JsValue)), jsSizeFields l ≤ n →
      ∀ (acc : List (String × JsValue)) (pre : String),
      (fieldKeys acc ++ fieldKeys (flattenFromSpec l pre)).Nodup →
      AxiosErrorPlugin.flattenGo acc l pre = acc ++ flattenFromSpec l pre := by
  intro n
  induction n with
  | zero =>
    intro l hl acc pre _
    cases l with
    | nil => simp [flattenGo_nil, flattenFromSpec]
    | cons hd rest =>
      obtain ⟨k, v⟩ := hd
      simp only [jsSizeFields] at hl
      omega
  | succ n ih =>
    intro l hl acc pre hnd
    cases l with
    | nil => simp [flattenGo_nil, flattenFromSpec]
    | cons hd rest =>
      obtain ⟨k, v⟩ := hd
      simp only [jsSizeFields] at hl
      have hrest : jsSizeFields rest ≤ n := by
        have hv : 1 ≤ jsSize v := by cases v <;> simp only [jsSize] <;> omega
        omega
      have hleaf : ∀ (w : JsValue),
          AxiosErrorPlugin.flattenGo acc ((k, v) :: rest) pre
            = AxiosErrorPlugin.flattenGo
                (jsSetFields acc (if pre = "" then k else pre ++ "." ++ k) w) rest pre →
          flattenFromSpec ((k, v) :: rest) pre
            = ((if pre = "" then k else pre ++ "." ++ k), w) :: flattenFromSpec rest pre →
          AxiosErrorPlugin.flattenGo acc ((k, v) :: rest) pre
            = acc ++ flattenFromSpec ((k, v) :: rest) pre := by
        intro w hgo hspec
        rw [hgo, hspec]
        rw [hspec, fieldKeys_cons] at hnd
        have hnd2 := List.nodup_append.mp hnd
        have hpath : (if pre = "" then k else pre ++ "." ++ k) ∉ fieldKeys acc := by
          intro hmem
          exact hnd2.2.2 hmem (List.mem_cons_self _ _)
        rw [jsSetFields_fresh acc _ w hpath]
        rw [ih rest hrest (acc ++ [((if pre = "" then k else pre ++ "." ++ k), w)]) pre ?_]
        · simp
        · rw [fieldKeys_append]
          rw [List.append_assoc]
          simpa [fieldKeys] using hnd
      cases v with
      | obj fs =>
        have hfs : jsSizeFields fs ≤ n := by
          simp only [jsSize] at hl
          omega
        rw [flattenGo_cons_obj]
        have hspec : flattenFromSpec ((k, JsValue.obj fs) :: rest) pre
            = flattenFromSpec fs (if pre = "" then k else pre ++ "." ++ k)
              ++ flattenFromSpec rest pre := by
          simp [flattenFromSpec]
        rw [hspec] at hnd ⊢
        rw [fieldKeys_append] at hnd
        have hndA := List.nodup_append.mp hnd
        have hndFR := List.nodup_append.mp hndA.2.1
        have hinner := ih fs hfs [] (if pre = "" then k else pre ++ "." ++ k)
          (by simpa [fieldKeys] using hndFR.1)
        rw [hinner, List.nil_append]
        rw [jsAssign_of_disjoint _ acc hndFR.1 ?_]
        · rw [ih rest hrest _ pre ?_]
          · simp
          · rw [fieldKeys_append, List.append_assoc]
            exact hnd
        · intro x hx hxa
          exact hndA.2.2 hxa (List.mem_append_left _ hx)
      | nullV =>
        exact hleaf _ (flattenGo_cons_leaf acc k _ rest pre (by intro fs h; cases h)
          (by intro x ps h; cases h)) (by simp [flattenFromSpec])
      | undefV =>
        exact hleaf _ (flattenGo_cons_leaf acc k _ rest pre (by intro fs h; cases h)
          (by intro x ps h; cases h)) (by simp [flattenFromSpec])
      | bool b =>
        exact hleaf _ (flattenGo_cons_leaf acc k _ rest pre (by intro fs h; cases h)
          (by intro x ps h; cases h)) (by simp [flattenFromSpec])
      | num i =>
        exact hleaf _ (flattenGo_cons_leaf acc k _ rest pre (by intro fs h; cases h)
          (by intro x ps h; cases h)) (by simp [flattenFromSpec])
      | str s =>
        exact hleaf _ (flattenGo_cons_leaf acc k _ rest pre (by intro fs h; cases h)
          (by intro x ps h; cases h)) (by simp [flattenFromSpec])
      | arr es ps =>
        match es with
        | [] =>
          exact hleaf _ (flattenGo_cons_leaf acc k _ rest pre (by intro fs h; cases h)
            (by intro x ps2 h; simp at h)) (by simp [flattenFromSpec])
        | [x] =>
          exact hleaf x (flattenGo_cons_arr1 acc k x ps rest pre) (by simp [flattenFromSpec])
        | x :: y :: tl =>
          exact hleaf _ (flattenGo_cons_leaf acc k _ rest pre (by intro fs h; cases h)
            (by intro z ps2 h; simp at h)) (by simp [flattenFromSpec])

/-- C2: the HTTP-client plugin's flattening produces a single-level map
keyed by dot-joined paths — plain objects are recursed into with the
extended prefix, any other value is a leaf, and a one-element array is
unwrapped to its element. The accumulator/`Object.assign` algorithm of the
source agrees with the spec's generate-and-concatenate formulation whenever
the produced dotted paths are distinct, and on the spec's concrete example
it yields exactly `{"user.email": "x", "user.roles": ["Admin","Editor"],
"status": 400}`. -/
theorem c2_flatten_dotted_paths :
    AxiosErrorPlugin.flattenGo []
        [("user", .obj [("email", .arr [.str "x"] []),
                        ("roles", .arr [.str "Admin", .str "Editor"] [])]),
         ("status", .arr [.num 400] [])] ""
      = [("user.email", .str "x"),
         ("user.roles", .arr [.str "Admin", .str "Editor"] []),
         ("status", .num 400)]
    ∧ ∀ (fields : List (String × JsValue)) (pre : String),
        (fieldKeys (flattenFromSpec fields pre)).Nodup →
        AxiosErrorPlugin.flattenGo [] fields pre = flattenFromSpec fields pre := by
  have hgen : ∀ (fields : List (String × JsValue)) (pre : String),
      (fieldKeys (flattenFromSpec fields pre)).Nodup →
      AxiosErrorPlugin.flattenGo [] fields pre = flattenFromSpec fields pre := by
    intro fields pre h
    have h2 := flattenGo_eq_spec_aux (jsSizeFields fields) fields (le_refl _) [] pre
      (by simpa [fieldKeys] using h)
    simpa using h2
  refine ⟨?_, hgen⟩
  have hspec : flattenFromSpec
      [("user", JsValue.obj [("email", JsValue.arr [.str "x"] []),
                             ("roles", JsValue.arr [.str "Admin", .str "Editor"] [])]),
       ("status", JsValue.arr [.num 400] [])] ""
      = [("user.email", .str "x"),
         ("user.roles", .arr [.str "Admin", .str "Editor"] []),
         ("status", .num 400)] := by
    simp [flattenFromSpec]
  rw [hgen _ "" (by rw [hspec]; decide), hspec]

/-- Witness for C2: on a small nested input with distinct paths the source
flattener agrees with the spec formulation. -/
theorem c2_flatten_dotted_paths_witness :
    AxiosErrorPlugin.flattenGo [] [("a", .obj [("b", .arr [.str "m"] [])])] ""
      = flattenFromSpec [("a", .obj [("b", .arr [.str "m"] [])])] "" :=
  c2_flatten_dotted_paths.2 [("a", .obj [("b", .arr [.str "m"] [])])] ""
    (by simp [flattenFromSpec, fieldKeys])

/-!
## Code-list lemmas (C4)
-/

theorem addCode_nodup (codes : List String) (c : String) (h : codes.Nodup) :
    (addCode codes c).Nodup := by
  by_cases hc : c ∈ codes
  · simpa [addCode, hc] using h
  · simp [addCode, hc, List.nodup_append, h]

theorem addCode_mem (codes : List String) (c x : String) (h : x ∈ codes) :
    x ∈ addCode codes c := by
  by_cases hc : c ∈ codes
  · simpa [addCode, hc] using h
  · simp [addCode, hc, h]

theorem applyMapIssue_codes_nodup (opts : ZodSerializationOptions) (issue : ZodIssue)
    (codes : List String) (h : codes.Nodup) :
    (ZodErrorPlugin.applyMapIssue opts issue codes).2.Nodup := by
  rcases hmi : opts.mapIssue with _ | f
  · simpa [ZodErrorPlugin.applyMapIssue, hmi] using h
  · rcases hfi : f issue with _ | mapped
    · simpa [ZodErrorPlugin.applyMapIssue, hmi, hfi] using h
    · rcases hmc : mapped.code with _ | c
      · simpa [ZodErrorPlugin.applyMapIssue, hmi, hfi, hmc] using h
      · by_cases hc : c.isEmpty
        · simpa [ZodErrorPlugin.applyMapIssue, hmi, hfi, hmc, hc] using h
        · simpa [ZodErrorPlugin.applyMapIssue, hmi, hfi, hmc, hc] using addCode_nodup codes c h

theorem applyMapIssue_codes_mem (opts : ZodSerializationOptions) (issue : ZodIssue)
    (codes : List String) (x : String) (h : x ∈ codes) :
    x ∈ (ZodErrorPlugin.applyMapIssue opts issue codes).2 := by
  rcases hmi : opts.mapIssue with _ | f
  · simpa [ZodErrorPlugin.applyMapIssue, hmi] using h
  · rcases hfi : f issue with _ | mapped
    · simpa [ZodErrorPlugin.applyMapIssue, hmi, hfi] using h
    · rcases hmc : mapped.code with _ | c
      · simpa [ZodErrorPlugin.applyMapIssue, hmi, hfi, hmc] using h
      · by_cases hc : c.isEmpty
        · simpa [ZodErrorPlugin.applyMapIssue, hmi, hfi, hmc, hc] using h
        · simpa [ZodErrorPlugin.applyMapIssue, hmi, hfi, hmc, hc] using addCode_mem codes c x h

theorem formatIssues_codes (opts : ZodSerializationOptions) :
    ∀ (issues : List ZodIssue) (result : JsValue) (codes : List String),
      codes.Nodup →
      (ZodErrorPlugin.formatIssues opts issues result codes).2.Nodup
        ∧ ∀ x ∈ codes, x ∈ (ZodErrorPlugin.formatIssues opts issues result codes).2 := by
  intro issues
  induction issues with
  | nil => intro result codes h; exact ⟨h, fun x hx => hx⟩
  | cons issue rest ih =>
    intro result codes h
    have hstep : ZodErrorPlugin.formatIssues opts (issue :: rest) result codes
        = ZodErrorPlugin.formatIssues opts rest
            (if opts.structureMode = .nested then
              ZodErrorPlugin.setNestedValue opts.messageFormat result
                ((issue.path.filter (fun k => !k.isSym)).map PathSeg.key)
                (ZodErrorPlugin.applyMapIssue opts issue codes).1
             else
              ZodErrorPlugin.setFlatValue opts.messageFormat result
                (String.intercalate opts.keySeparator
                  ((issue.path.filter (fun k => !k.isSym)).map PathSeg.key))
                (ZodErrorPlugin.applyMapIssue opts issue codes).1)
            (ZodErrorPlugin.applyMapIssue opts issue codes).2 := rfl
    rw [hstep]
    have h1 := applyMapIssue_codes_nodup opts issue codes h
    exact ⟨(ih _ _ h1).1, fun x hx => (ih _ _ h1).2 x (applyMapIssue_codes_mem opts issue codes x hx)⟩

/-- C4 counterexample: a backend body with `code: ["X","X"]` is passed
through as-is by the HTTP-client plugin, so `process` produces a `code`
list with a duplicate entry, refuting the claimed uniqueness invariant. -/
theorem c4_code_duplicates_counterexample :
    (((ErrorSerializer.init : ErrorSerializer ErrVal Unit).register
        AxiosErrorPlugin.plugin).process jsStringErr
        (.axiosError ⟨"boom", some ⟨400, .obj [("code", .arr [.str "X", .str "X"] [])]⟩⟩)).code
      = some [.str "X", .str "X"]
    ∧ ¬ ([JsValue.str "X", JsValue.str "X"] : List JsValue).Nodup := by
  refine ⟨rfl, ?_⟩
  simp

/-- C4 (amended): every `code` list produced by the fallback path, the
generic-error plugin, or the validation plugin is non-empty and
duplicate-free (the validation plugin's codes keep first-added order by
construction of the insertion-ordered set); the HTTP-client plugin also
yields a non-empty duplicate-free singleton whenever the backend `code` /
`errorCode` value is not an array — but a truthy backend ARRAY is passed
through as-is and may be empty or contain duplicates (see the
counterexample), which is the one exception the claim must carve out. -/
theorem c4_code_nonempty_unique_amended :
    (∀ {α : Type} (toStr : α → String) (e : α),
      ∃ l, ((ErrorSerializer.init : ErrorSerializer α Unit).process toStr e).code = some l
        ∧ l ≠ [] ∧ l.Nodup)
  ∧ (∀ (e : ErrVal),
      ∃ l, (StandardErrorPlugin.plugin.params e).code = some l ∧ l ≠ [] ∧ l.Nodup)
  ∧ (∀ (opts : ZodSerializationOptions) (issues : List ZodIssue),
      ∃ codes, (ZodErrorPlugin.serializeParams opts issues).code = some (codes.map JsValue.str)
        ∧ codes ≠ [] ∧ codes.Nodup)
  ∧ (∀ (e : AxiosErrorData), (∀ es ps, AxiosErrorPlugin.backendCode e ≠ .arr es ps) →
      ∃ l, (AxiosErrorPlugin.serializeParams e).code = some l ∧ l ≠ [] ∧ l.Nodup) := by
  refine ⟨?_, ?_, ?_, ?_⟩
  · intro α toStr e
    exact ⟨[.str "UNHANDLED_EXCEPTION"], rfl, by simp, by simp⟩
  · intro e
    exact ⟨[.str "INTERNAL_ERROR"], rfl, by simp, by simp⟩
  · intro opts issues
    have hc := formatIssues_codes opts issues (.obj []) ["102"] (by simp)
    refine ⟨(ZodErrorPlugin.formatIssues opts issues (.obj []) ["102"]).2, rfl, ?_, hc.1⟩
    have h102 : "102" ∈ (ZodErrorPlugin.formatIssues opts issues (.obj []) ["102"]).2 :=
      hc.2 "102" (by simp)
    exact List.ne_nil_of_mem h102
  · intro e hnotarr
    have hshape : ∃ x, AxiosErrorPlugin.finalCodes e = [x] := by
      by_cases ht : jsTruthy (AxiosErrorPlugin.backendCode e)
      · cases hb : AxiosErrorPlugin.backendCode e with
        | arr es ps => exact absurd hb (hnotarr es ps)
        | nullV => rw [hb] at ht; simp [jsTruthy] at ht
        | undefV => rw [hb] at ht; simp [jsTruthy] at ht
        | bool b =>
          rw [hb] at ht
          exact ⟨.str (jsToStr (JsValue.bool b)), by simp [AxiosErrorPlugin.finalCodes, hb, ht]⟩
        | num n =>
          rw [hb] at ht
          exact ⟨.str (jsToStr (JsValue.num n)), by simp [AxiosErrorPlugin.finalCodes, hb, ht]⟩
        | str s =>
          rw [hb] at ht
          exact ⟨.str (jsToStr (JsValue.str s)), by simp [AxiosErrorPlugin.finalCodes, hb, ht]⟩
        | obj fs =>
          rw [hb] at ht
          exact ⟨.str (jsToStr (JsValue.obj fs)), by simp [AxiosErrorPlugin.finalCodes, hb, ht]⟩
      · exact ⟨.str ("HTTP_" ++ toString (AxiosErrorPlugin.statusOf e)),
          by simp [AxiosErrorPlugin.finalCodes, ht]⟩
    obtain ⟨x, hx⟩ := hshape
    exact ⟨AxiosErrorPlugin.finalCodes e, rfl, by simp [hx], by simp [hx]⟩

/-- Witness for C4 (amended): concrete instances of the fallback, Axios
no-response, and Zod empty-issue cases. -/
theorem c4_code_nonempty_unique_amended_witness :
    (∃ l, ((ErrorSerializer.init : ErrorSerializer ErrVal Unit).process jsStringErr .nullV).code
        = some l ∧ l ≠ [] ∧ l.Nodup)
  ∧ (∃ l, (AxiosErrorPlugin.serializeParams ⟨"m", none⟩).code = some l ∧ l ≠ [] ∧ l.Nodup)
  ∧ (∃ codes, (ZodErrorPlugin.serializeParams {} []).code = some (codes.map JsValue.str)
        ∧ codes ≠ [] ∧ codes.Nodup) := by
  refine ⟨c4_code_nonempty_unique_amended.1 jsStringErr .nullV,
    c4_code_nonempty_unique_amended.2.2.2 ⟨"m", none⟩ ?_,
    c4_code_nonempty_unique_amended.2.2.1 {} []⟩
  intro es ps hcon
  simp [AxiosErrorPlugin.backendCode, AxiosErrorPlugin.responseData, jsProp, jsRead,
    jsOr, jsTruthy] at hcon

/-- Witness for C1: with plugins of priorities 0 and 1 that both match, the
response's priority is 1, the highest matching priority. -/
theorem c1_priority_of_highest_matching_witness :
    ((((ErrorSerializer.init : ErrorSerializer Unit Unit)).registerAll
        [pluginB, pluginC]).process (fun _ => "") ()).metadata.priority = 1 := by
  have h := c1_priority_of_highest_matching [pluginB, pluginC] (fun _ => "") ()
  exact h.trans (by rfl)

/-- Witness for C6: the fallback response for the number 7 carries the
number 7 itself in its `error` field. -/
theorem c6_error_identity_witness :
    ((ErrorSerializer.init : ErrorSerializer ErrVal Unit).process jsStringErr
        (.num 7)).error = .num 7 :=
  c6_error_identity (ErrorSerializer.init : ErrorSerializer ErrVal Unit) jsStringErr (.num 7)

/-- Witness for C7: with two subscribers, the trace is both callbacks in
subscription order, each receiving the returned output. -/
theorem c7_callbacks_once_in_order_witness :
    ((((ErrorSerializer.init : ErrorSerializer Unit Nat).subscribe 1).subscribe 2).processTrace
        (fun _ => "") ()).2
      = [1, 2].map (fun c => (c,
          (((ErrorSerializer.init : ErrorSerializer Unit Nat).subscribe 1).subscribe 2).process
            (fun _ => "") ()))
    ∧ ((((ErrorSerializer.init : ErrorSerializer Unit Nat).subscribe 1).subscribe 2).processTrace
        (fun _ => "") ()).1
      = (((ErrorSerializer.init : ErrorSerializer Unit Nat).subscribe 1).subscribe 2).process
          (fun _ => "") () :=
  c7_callbacks_once_in_order
    (((ErrorSerializer.init : ErrorSerializer Unit Nat).subscribe 1).subscribe 2) (fun _ => "") ()
